import Mathlib

/-!
# Wayne County auction scraper — verification of the parallel scraping and
# incremental bid-tracking subsystem

A shallow embedding of the core of the `auction-bdding` repository:

* the Worker Unit's per-ID scrape loop (`worker-scraper.js`: field extraction,
  skip logic, currency normalization, `hasBids` derivation, progress/error
  events),
* the Scrape Coordinator's range partition (`parallel-scraper.js`,
  `scrapeRange`),
* the Bid Tracker (`bid-tracker.js`: `recordSnapshot`, `updateMetrics`,
  `calculateCompetitionScore`, `loadCurrentProperties`),
* the Update Scheduler's urgency classifier (`update-scheduler.js`,
  `getUpdatePriority`).

JavaScript numbers are modelled as `ℚ` (every quantity the embedded code
manipulates is an exact decimal; time is milliseconds since the epoch as `ℚ`).
Nullable string fields are `Option String`; JS truthiness of strings
(`null`/`undefined`/`""` falsy) and of numbers (`0` falsy) is made explicit
through the `jsTruthy`/`jsOrNum` helpers below.
-/

/-- JS truthiness of a nullable string: `null`/`undefined` and `""` are falsy. -/
def jsTruthy : Option String → Bool
  | none => false
  | some s => s ≠ ""

/-- JS `a || b` on a nullable number: `null`/`undefined` and `0` are falsy. -/
def jsOrNum (a : Option ℚ) (b : ℚ) : ℚ :=
  match a with
  | none => b
  | some x => if x = 0 then b else x

/-- JS `s || ''` on a nullable string. -/
def jsOrEmpty : Option String → String
  | none => ""
  | some s => s

/-! ## Currency normalization (worker-scraper.js lines 417–419)

The source computes `parseFloat((x || '').replace(/[$,]/g, '')) || 0` for the
`minimumBid`, `currentBid` and `sevValue` fields. -/

/-- `.replace(/[$,]/g, '')`: delete every `$` and `,` character. -/
def stripCurrencyChars (s : String) : String :=
  String.mk (s.data.filter (fun c => c ≠ '$' ∧ c ≠ ','))

/-- Digits-prefix accumulator: consume leading decimal digits, returning their
value, how many were consumed, and the rest. -/
def takeDigits : List Char → ℕ → ℕ → ℕ × ℕ × List Char
  | [], acc, n => (acc, n, [])
  | c :: cs, acc, n =>
    if c.isDigit then takeDigits cs (acc * 10 + (c.toNat - '0'.toNat)) (n + 1)
    else (acc, n, c :: cs)

/-- Model of JS `parseFloat` on the strings this system feeds it: an optional
sign followed by a longest prefix `digits [. digits]`; `none` is `NaN` (no
digit in the prefix). Exponent notation and leading whitespace are not used by
any currency field and are not modelled. -/
def parseFloatQ (s : String) : Option ℚ :=
  let cs := s.data
  let (sign, rest) :=
    match cs with
    | '-' :: t => ((-1 : ℚ), t)
    | '+' :: t => ((1 : ℚ), t)
    | t => ((1 : ℚ), t)
  let (ipart, ilen, rest') := takeDigits rest 0 0
  let (fpart, flen) :=
    match rest' with
    | '.' :: t =>
      let (f, fl, _) := takeDigits t 0 0
      (f, fl)
    | _ => (0, 0)
  if ilen = 0 ∧ flen = 0 then none
  else some (sign * ((ipart : ℚ) + (fpart : ℚ) / (10 : ℚ) ^ flen))

/-- `parseFloat((x || '').replace(/[$,]/g, '')) || 0`: the worker's currency
normalization (`NaN`, like `0`, collapses to `0` under `|| 0`). -/
def parseCurrency (x : Option String) : ℚ :=
  match parseFloatQ (stripCurrencyChars (jsOrEmpty x)) with
  | none => 0
  | some q => q

/-! ## Update Scheduler urgency classification (update-scheduler.js,
`getUpdatePriority`, lines 71–87) -/

inductive Priority where
  | expired
  | immediate
  | urgent
  | regular
  | standard
  deriving DecidableEq

/-- Polling interval in milliseconds attached to each priority
(`this.intervals`); `expired` carries `null`. -/
def priorityInterval : Priority → Option ℚ
  | .expired => none
  | .immediate => some (1 * 60 * 1000)
  | .urgent => some (5 * 60 * 1000)
  | .regular => some (10 * 60 * 1000)
  | .standard => some (60 * 60 * 1000)

/-- `getUpdatePriority(closingTime)`: classify by
`hoursUntilClosing = (closing - now) / (1000*60*60)`. `now` and `closing` are
epoch milliseconds. -/
def getUpdatePriority (now closing : ℚ) : Priority :=
  let hoursUntilClosing := (closing - now) / (1000 * 60 * 60)
  if hoursUntilClosing ≤ 0 then .expired
  else if hoursUntilClosing ≤ 1 then .immediate
  else if hoursUntilClosing ≤ 3 then .urgent
  else if hoursUntilClosing ≤ 6 then .regular
  else .standard

/-! ## Worker Unit (worker-scraper.js, `runWorker`, lines 347–453)

The per-ID loop: navigate, detect the not-found marker, extract DOM fields,
skip empty pages and "removed from auction" listings, normalize currency
fields, derive `hasBids`, and emit a result followed by a progress message.
Any per-ID exception is caught and reported as an error message followed by a
progress message. The outside world (navigation + DOM) is a function from the
numeric ID to the per-ID outcome. The `scrapedAt` capture timestamp and the
every-10th-ID pacing delay are wall-clock effects with no bearing on the
emitted event stream and are not modelled. -/

/-- DOM fields extracted by `page.evaluate` (`getText` returns the trimmed
text of the element, or `null` when the element id is missing). -/
structure RawPage where
  parcelId : Option String := none
  address : Option String := none
  city : Option String := none
  zip : Option String := none
  legalDescription : Option String := none
  sevValue : Option String := none
  auctionId : Option String := none
  status : Option String := none
  biddingCloses : Option String := none
  currentBid : Option String := none
  minimumBid : Option String := none
  summerTax : Option String := none
  winterTax : Option String := none
  deriving DecidableEq

/-- The record the worker posts as a `result` message: the raw DOM fields plus
the overwritten `auctionId` and the derived numeric/boolean fields. -/
structure ListingRecord where
  raw : RawPage
  auctionId : String
  minimumBidNumeric : ℚ
  currentBidNumeric : ℚ
  sevValueNumeric : ℚ
  hasBids : Bool
  deriving DecidableEq

/-- Lines 416–420: `auctionId = id.toString()`, the three currency fields, and
`hasBids = currentBid && currentBid !== '' && currentBid !== '$0.00'` (the JS
expression yields the falsy raw value when `currentBid` is `null`/`''`; as a
boolean it is false exactly then). -/
def mkListingRecord (id : ℕ) (d : RawPage) : ListingRecord where
  raw := d
  auctionId := toString id
  minimumBidNumeric := parseCurrency d.minimumBid
  currentBidNumeric := parseCurrency d.currentBid
  sevValueNumeric := parseCurrency d.sevValue
  hasBids := jsTruthy d.currentBid && d.currentBid != some "" && d.currentBid != some "$0.00"

/-- Per-ID result of navigating and evaluating the detail page: the navigation
or extraction threw, the not-found marker was present, or the page's fields
were extracted. -/
inductive PageOutcome where
  | throws (msg : String)
  | notFound
  | page (d : RawPage)
  deriving DecidableEq

/-- Messages a worker posts to its parent (`parentPort.postMessage`). -/
inductive WorkerMsg where
  | statusMsg (m : String)
  | progress (current total : ℕ)
  | result (r : ListingRecord)
  | error (msg : String)
  | complete
  deriving DecidableEq

/-- Substring test used to model `String.includes`. -/
def strIncludes (s sub : String) : Bool :=
  s.data.tails.any (fun t => sub.data.isPrefixOf t)

/-- Lines 404–406: `status && (status.toLowerCase().includes('removed') ||
status === 'Removed from Auction')`. -/
def isRemovedStatus (status : Option String) : Bool :=
  jsTruthy status &&
    match status with
    | none => false
    | some s => strIncludes s.toLower "removed" || s == "Removed from Auction"

/-- One iteration of the worker's for-loop (lines 347–453): the messages posted
for a single ID. `total` is `endId - startId + 1`. -/
def processId (total : ℕ) (outcome : ℕ → PageOutcome) (id : ℕ) : List WorkerMsg :=
  match outcome id with
  | .throws m =>
      [.error ("Failed to scrape " ++ toString id ++ ": " ++ m), .progress id total]
  | .notFound => [.progress id total]
  | .page d =>
      if !jsTruthy d.auctionId && !jsTruthy d.address then
        [.progress id total]
      else if isRemovedStatus d.status then
        [.progress id total]
      else
        [.result (mkListingRecord id d), .progress id total]

/-- `runWorker`: the started-status message, the per-ID loop over
`startId..endId` in ascending order, and the final `complete` message. -/
def runWorkerMsgs (startId endId : ℕ) (outcome : ℕ → PageOutcome) : List WorkerMsg :=
  .statusMsg ("Worker started: " ++ toString startId ++ " to " ++ toString endId) ::
    (List.range' startId (endId + 1 - startId)).flatMap (processId (endId + 1 - startId) outcome)
    ++ [.complete]

/-- Count of progress messages whose `current` field is `id`. -/
def countProgressAt (msgs : List WorkerMsg) (id : ℕ) : ℕ :=
  msgs.countP (fun m => match m with | .progress c _ => c == id | _ => false)

/-- Count of result messages (emitted ListingRecords). -/
def countResults (msgs : List WorkerMsg) : ℕ :=
  msgs.countP (fun m => match m with | .result _ => true | _ => false)

/-! ## Theorems for the Update Scheduler and currency normalization -/

/-- C7: the urgency classification returns `expired` when the time remaining
until `closing` is ≤ 0, `immediate` when it is ≤ 1 hour, `urgent` when ≤ 3
hours, `regular` when ≤ 6 hours, and `standard` otherwise; in particular
`now + 45 min ↦ immediate`, `now + 2 h ↦ urgent`, `now + 5 h ↦ regular`,
`now + 10 h ↦ standard`, and `now - 1 min ↦ expired`. -/
theorem getUpdatePriority_classification (now closing : ℚ) :
    ((getUpdatePriority now closing = .expired) ↔ closing - now ≤ 0)
    ∧ ((getUpdatePriority now closing = .immediate) ↔
        0 < closing - now ∧ closing - now ≤ 3600000)
    ∧ ((getUpdatePriority now closing = .urgent) ↔
        3600000 < closing - now ∧ closing - now ≤ 3 * 3600000)
    ∧ ((getUpdatePriority now closing = .regular) ↔
        3 * 3600000 < closing - now ∧ closing - now ≤ 6 * 3600000)
    ∧ ((getUpdatePriority now closing = .standard) ↔ 6 * 3600000 < closing - now)
    ∧ getUpdatePriority now (now + 45 * 60000) = .immediate
    ∧ getUpdatePriority now (now + 2 * 3600000) = .urgent
    ∧ getUpdatePriority now (now + 5 * 3600000) = .regular
    ∧ getUpdatePriority now (now + 10 * 3600000) = .standard
    ∧ getUpdatePriority now (now - 60000) = .expired := by
  unfold getUpdatePriority
  have h0 : ((0:ℚ) < 1000 * 60 * 60) := by norm_num
  refine ⟨?_, ?_, ?_, ?_, ?_, ?_, ?_, ?_, ?_, ?_⟩ <;>
    simp only [div_le_iff₀ h0, div_nonpos_iff] <;>
    split_ifs with h1 h2 h3 h4 <;>
    simp_all <;>
    first
      | linarith
      | (constructor <;> linarith)
      | (intro h; linarith)

/-- C10: the worker's currency normalization, applied identically to the
`minimumBid`, `currentBid` and `sevValue` fields, maps `"$1,234.56"` to
`1234.56` and each of `""`, `null`, `"N/A"` to `0`. -/
theorem parseCurrency_values :
    (∀ (id : ℕ) (d : RawPage),
        (mkListingRecord id d).minimumBidNumeric = parseCurrency d.minimumBid
        ∧ (mkListingRecord id d).currentBidNumeric = parseCurrency d.currentBid
        ∧ (mkListingRecord id d).sevValueNumeric = parseCurrency d.sevValue)
    ∧ parseCurrency (some "$1,234.56") = 1234.56
    ∧ parseCurrency (some "") = 0
    ∧ parseCurrency none = 0
    ∧ parseCurrency (some "N/A") = 0 := by
  refine ⟨fun id d => ⟨rfl, rfl, rfl⟩, ?_, ?_, ?_, ?_⟩
  · simp +decide [parseCurrency, parseFloatQ, stripCurrencyChars, jsOrEmpty, takeDigits]
    norm_num
  · simp +decide [parseCurrency, parseFloatQ, stripCurrencyChars, jsOrEmpty, takeDigits]
  · simp +decide [parseCurrency, parseFloatQ, stripCurrencyChars, jsOrEmpty, takeDigits]
  · simp +decide [parseCurrency, parseFloatQ, stripCurrencyChars, jsOrEmpty, takeDigits]

/-! ## Worker Unit event-stream lemmas -/

theorem countProgressAt_processId (total : ℕ) (f : ℕ → PageOutcome) (a id : ℕ) :
    countProgressAt (processId total f a) id = if a = id then 1 else 0 := by
  unfold countProgressAt processId
  rcases f a with m | _ | d
  · by_cases h : a = id <;> simp_all [List.countP, List.countP.go, cond_eq_if, beq_iff_eq]
  · by_cases h : a = id <;> simp_all [List.countP, List.countP.go, cond_eq_if, beq_iff_eq]
  · cases hA : jsTruthy d.auctionId <;>
      cases hB : jsTruthy d.address <;>
      cases hr : isRemovedStatus d.status <;>
      by_cases h : a = id <;>
      simp_all [List.countP, List.countP.go, cond_eq_if, beq_iff_eq]

theorem sum_indicator_above (id : ℕ) :
    ∀ (n s : ℕ), id < s →
      (List.map (fun a => if a = id then (1:ℕ) else 0) (List.range' s n)).sum = 0 := by
  intro n
  induction n with
  | zero => intro s _; simp
  | succ m ih =>
    intro s hs
    rw [List.range'_succ]
    simp only [List.map_cons, List.sum_cons]
    rw [if_neg (by omega), ih (s + 1) (by omega)]

theorem sum_indicator_inside (id : ℕ) :
    ∀ (n s : ℕ), s ≤ id → id < s + n →
      (List.map (fun a => if a = id then (1:ℕ) else 0) (List.range' s n)).sum = 1 := by
  intro n
  induction n with
  | zero => intro s h1 h2; omega
  | succ m ih =>
    intro s h1 h2
    rw [List.range'_succ]
    simp only [List.map_cons, List.sum_cons]
    by_cases h : s = id
    · rw [if_pos h, sum_indicator_above id m (s + 1) (by omega)]
    · rw [if_neg h, ih (s + 1) (by omega) (by omega)]

theorem countProgressAt_runWorker (s e : ℕ) (f : ℕ → PageOutcome) (id : ℕ)
    (h1 : s ≤ id) (h2 : id ≤ e) :
    countProgressAt (runWorkerMsgs s e f) id = 1 := by
  unfold runWorkerMsgs countProgressAt
  simp only [List.countP_cons, List.countP_append, List.countP_flatMap]
  have hmap : List.map
      (List.countP (fun m => match m with | .progress c _ => c == id | _ => false) ∘
        processId (e + 1 - s) f) (List.range' s (e + 1 - s))
      = List.map (fun a => if a = id then 1 else 0) (List.range' s (e + 1 - s)) := by
    apply List.map_congr_left
    intro a _
    exact countProgressAt_processId (e + 1 - s) f a id
  rw [hmap, sum_indicator_inside id (e + 1 - s) s h1 (by omega)]
  simp

theorem error_mem_runWorker (s e : ℕ) (f : ℕ → PageOutcome) (id : ℕ) (m : String)
    (h1 : s ≤ id) (h2 : id ≤ e) (hf : f id = .throws m) :
    WorkerMsg.error ("Failed to scrape " ++ toString id ++ ": " ++ m) ∈
      runWorkerMsgs s e f := by
  unfold runWorkerMsgs
  refine List.mem_cons_of_mem _ (List.mem_append_left _ ?_)
  rw [List.mem_flatMap]
  refine ⟨id, ?_, ?_⟩
  · rw [List.mem_range'_1]
    omega
  · unfold processId
    rw [hf]
    exact List.mem_cons_self _ _

/-- C8: every ID in the worker's range produces exactly one progress message
(regardless of the per-ID outcome); a per-ID exception is reported as an error
message carrying the ID and exception text and does not prevent any other ID's
progress message; scraping the single-ID range `[1,1]` with the not-found
marker present yields zero result records and exactly one progress message,
which has `current = 1, total = 1`. -/
theorem runWorker_progress_and_errors (s e : ℕ) (f : ℕ → PageOutcome) :
    (∀ id, s ≤ id → id ≤ e → countProgressAt (runWorkerMsgs s e f) id = 1)
    ∧ (∀ id m, s ≤ id → id ≤ e → f id = .throws m →
        WorkerMsg.error ("Failed to scrape " ++ toString id ++ ": " ++ m) ∈
          runWorkerMsgs s e f)
    ∧ countResults (runWorkerMsgs 1 1 (fun _ => .notFound)) = 0
    ∧ runWorkerMsgs 1 1 (fun _ => .notFound) =
        [.statusMsg "Worker started: 1 to 1", .progress 1 1, .complete] := by
  exact ⟨fun id hs he => countProgressAt_runWorker s e f id hs he,
    fun id m hs he hf => error_mem_runWorker s e f id m hs he hf, by decide, by decide⟩

/-- Witness for C8 at a concrete range with a throwing ID: range `[1,3]`
where ID 2 throws "boom" — ID 2 still gets exactly one progress message and
its error message is posted. -/
theorem runWorker_progress_and_errors_witness :
    countProgressAt
        (runWorkerMsgs 1 3 (fun i => if i = 2 then .throws "boom" else .notFound)) 2 = 1
    ∧ WorkerMsg.error "Failed to scrape 2: boom" ∈
        runWorkerMsgs 1 3 (fun i => if i = 2 then .throws "boom" else .notFound) := by
  refine ⟨(runWorker_progress_and_errors 1 3 _).1 2 (by omega) (by omega), ?_⟩
  have h := (runWorker_progress_and_errors 1 3
      (fun i => if i = 2 then .throws "boom" else .notFound)).2.1 2 "boom"
      (by omega) (by omega) (by rfl)
  simpa using h

/-! ## `hasBids` derivation (C2) -/

theorem result_mem_processId (total : ℕ) (f : ℕ → PageOutcome) (a : ℕ)
    (r : ListingRecord) (h : WorkerMsg.result r ∈ processId total f a) :
    ∃ d, f a = .page d ∧ r = mkListingRecord a d := by
  unfold processId at h
  rcases hf : f a with m | _ | d <;> rw [hf] at h
  · simp at h
  · simp at h
  · refine ⟨d, rfl, ?_⟩
    rcases hA : jsTruthy d.auctionId <;>
      rcases hB : jsTruthy d.address <;>
      rcases hr : isRemovedStatus d.status <;>
      simp_all

theorem hasBids_mkListingRecord (id : ℕ) (d : RawPage) :
    (mkListingRecord id d).hasBids = true ↔
      d.currentBid ≠ none ∧ d.currentBid ≠ some "" ∧ d.currentBid ≠ some "$0.00" := by
  unfold mkListingRecord jsTruthy
  rcases d.currentBid with _ | s <;> simp

/-- C2 (amended): for every ListingRecord emitted by the Worker Unit,
`hasBids` is true iff the raw current-bid field is present, non-empty, and
not the literal string `"$0.00"`; the normalized numeric amount and the
`"NONE"` sentinel are not consulted. -/
theorem hasBids_characterization (s e : ℕ) (f : ℕ → PageOutcome)
    (r : ListingRecord) (hmem : WorkerMsg.result r ∈ runWorkerMsgs s e f) :
    r.hasBids = true ↔
      r.raw.currentBid ≠ none ∧ r.raw.currentBid ≠ some "" ∧
        r.raw.currentBid ≠ some "$0.00" := by
  unfold runWorkerMsgs at hmem
  cases hmem with
  | tail _ hmem =>
    rcases List.mem_append.1 hmem with hmem | hmem
    · rcases List.mem_flatMap.1 hmem with ⟨a, _, ha⟩
      rcases result_mem_processId _ f a r ha with ⟨d, _, rfl⟩
      exact hasBids_mkListingRecord a d
    · simp at hmem

/-- Witness for C2 (amended) at a concrete emitted record with a real bid. -/
theorem hasBids_characterization_witness :
    ((mkListingRecord 1 { auctionId := some "1", currentBid := some "$5.00" }).hasBids = true ↔
      (some "$5.00" : Option String) ≠ none ∧ (some "$5.00" : Option String) ≠ some "" ∧
        (some "$5.00" : Option String) ≠ some "$0.00") := by
  have hmem : WorkerMsg.result
      (mkListingRecord 1 { auctionId := some "1", currentBid := some "$5.00" }) ∈
        runWorkerMsgs 1 1
          (fun _ => .page { auctionId := some "1", currentBid := some "$5.00" }) := by
    simp +decide [runWorkerMsgs, processId, List.range', jsTruthy, isRemovedStatus]
  exact hasBids_characterization 1 1 _ _ hmem

/-- Counterexample to C2 as stated: the raw current-bid sentinel `"NONE"` is
emitted with `hasBids = true` although its normalized amount is `0` — the
claimed iff (hasBids ↔ normalized bid > 0 ∧ raw not "NONE" ∧ raw non-empty)
is false for this emitted record. -/
theorem hasBids_claim_counterexample :
    (mkListingRecord 7 { auctionId := some "7", currentBid := some "NONE" }).hasBids = true
    ∧ (mkListingRecord 7 { auctionId := some "7", currentBid := some "NONE" }).currentBidNumeric = 0
    ∧ WorkerMsg.result (mkListingRecord 7 { auctionId := some "7", currentBid := some "NONE" }) ∈
        runWorkerMsgs 7 7 (fun _ => .page { auctionId := some "7", currentBid := some "NONE" })
    ∧ ¬((mkListingRecord 7 { auctionId := some "7", currentBid := some "NONE" }).hasBids = true ↔
        (0 < (mkListingRecord 7 { auctionId := some "7", currentBid := some "NONE" }).currentBidNumeric
          ∧ (mkListingRecord 7 { auctionId := some "7", currentBid := some "NONE" }).raw.currentBid ≠ some "NONE"
          ∧ (mkListingRecord 7 { auctionId := some "7", currentBid := some "NONE" }).raw.currentBid ≠ some ""
          ∧ (mkListingRecord 7 { auctionId := some "7", currentBid := some "NONE" }).raw.currentBid ≠ none)) := by
  have hnum : (mkListingRecord 7
      { auctionId := some "7", currentBid := some "NONE" }).currentBidNumeric = 0 := by
    simp +decide [mkListingRecord, parseCurrency, parseFloatQ, stripCurrencyChars, jsOrEmpty,
      takeDigits]
  refine ⟨by decide, hnum, ?_, ?_⟩
  · simp +decide [runWorkerMsgs, processId, List.range', jsTruthy, isRemovedStatus]
  · intro h
    rcases (h.1 (by decide)) with ⟨_, hN, _⟩
    exact hN rfl

/-! ## Scrape Coordinator range partition (parallel-scraper.js, `scrapeRange`,
lines 85–103)

`rangePerWorker = Math.ceil((endId - startId + 1) / workerCount)`; worker `i`
gets `[startId + i*rangePerWorker, min(startId + (i+1)*rangePerWorker - 1,
endId)]`, and the loop breaks once `workerStart > endId`. IDs are naturals
(the site's numeric auction IDs). -/

/-- `Math.ceil((endId - startId + 1) / workerCount)` for `startId ≤ endId`. -/
def rangePerWorker (startId endId workerCount : ℕ) : ℕ :=
  (endId - startId + 1 + (workerCount - 1)) / workerCount

/-- The launch loop: `fuel` iterations remain, the next worker would start at
`ws`; stop early when `ws > endId` (line 100's `break`). -/
def workerRangesAux (endId rpw : ℕ) : ℕ → ℕ → List (ℕ × ℕ)
  | 0, _ => []
  | fuel + 1, ws =>
    if ws > endId then []
    else (ws, min (ws + rpw - 1) endId) :: workerRangesAux endId rpw fuel (ws + rpw)

/-- The sub-ranges `scrapeRange` assigns to its workers. -/
def scrapeRangePartition (startId endId workerCount : ℕ) : List (ℕ × ℕ) :=
  workerRangesAux endId (rangePerWorker startId endId workerCount) workerCount startId

/-- How many of the sub-ranges contain `id`. -/
def coverCount (ranges : List (ℕ × ℕ)) (id : ℕ) : ℕ :=
  ranges.countP (fun r => decide (r.1 ≤ id ∧ id ≤ r.2))

theorem coverCount_aux_below (endId rpw id : ℕ) :
    ∀ (fuel ws : ℕ), id < ws →
      coverCount (workerRangesAux endId rpw fuel ws) id = 0 := by
  intro fuel
  induction fuel with
  | zero => intro ws _; simp [workerRangesAux, coverCount]
  | succ n ih =>
    intro ws hws
    unfold workerRangesAux
    split_ifs with h
    · simp [coverCount]
    · unfold coverCount
      rw [List.countP_cons_of_neg _ _ (by simp; omega)]
      exact ih (ws + rpw) (by omega)

theorem coverCount_aux_inside (endId rpw id : ℕ) (hrpw : 1 ≤ rpw) (hid : id ≤ endId) :
    ∀ (fuel ws : ℕ), ws ≤ id → id < ws + fuel * rpw →
      coverCount (workerRangesAux endId rpw fuel ws) id = 1 := by
  intro fuel
  induction fuel with
  | zero => intro ws h1 h2; omega
  | succ n ih =>
    intro ws h1 h2
    unfold workerRangesAux
    rw [if_neg (by omega)]
    by_cases hin : id ≤ ws + rpw - 1
    · unfold coverCount
      rw [List.countP_cons_of_pos _ _ (by simp; omega)]
      have hb := coverCount_aux_below endId rpw id n (ws + rpw) (by omega)
      unfold coverCount at hb
      omega
    · unfold coverCount
      rw [List.countP_cons_of_neg _ _ (by simp; omega)]
      exact ih (ws + rpw) (by omega) (by have := h2; rw [Nat.succ_mul] at this; omega)

/-- C5: for every `startId ≤ endId` and `workerCount ≥ 1`, the coordinator's
partition assigns every ID of the range to exactly one worker sub-range (no
gaps, no overlaps); in particular partitioning `[250900000, 250900029]`
across 3 workers covers each of the 30 IDs exactly once. -/
theorem scrapeRangePartition_exact_cover (startId endId workerCount id : ℕ)
    (hse : startId ≤ endId) (hw : 1 ≤ workerCount)
    (hid1 : startId ≤ id) (hid2 : id ≤ endId) :
    coverCount (scrapeRangePartition startId endId workerCount) id = 1
    ∧ ((List.range 30).all (fun k =>
        coverCount (scrapeRangePartition 250900000 250900029 3) (250900000 + k) == 1)) = true := by
  refine ⟨?_, by decide⟩
  unfold scrapeRangePartition
  set rpw := rangePerWorker startId endId workerCount with hr
  have hrpw : 1 ≤ rpw := by
    rw [hr]
    unfold rangePerWorker
    rw [Nat.le_div_iff_mul_le (show 0 < workerCount by omega)]
    omega
  have hcov : id < startId + workerCount * rpw := by
    have hkey : endId - startId + 1 ≤ workerCount * rpw := by
      rw [hr]
      unfold rangePerWorker
      have := Nat.div_add_mod (endId - startId + 1 + (workerCount - 1)) workerCount
      have hmod := Nat.mod_lt (endId - startId + 1 + (workerCount - 1))
        (show 0 < workerCount by omega)
      omega
    omega
  exact coverCount_aux_inside endId rpw id hrpw hid2 workerCount startId hid1 hcov

/-- Witness for C5 at the spec's concrete instance: ID 250900015 in
`[250900000, 250900029]` partitioned across 3 workers. -/
theorem scrapeRangePartition_exact_cover_witness :
    coverCount (scrapeRangePartition 250900000 250900029 3) 250900015 = 1 := by
  exact (scrapeRangePartition_exact_cover 250900000 250900029 3 250900015
    (by omega) (by omega) (by omega) (by omega)).1

/-! ## Bid Tracker (bid-tracker.js)

`recordSnapshot` (lines 639–730), `updateMetrics` (733–780),
`calculateCompetitionScore` (783–825), `loadCurrentProperties` (621–636).
The persisted JSON map `this.bidHistory` is an association list keyed by
`auctionId`; file I/O (saving the history and the rotated raw snapshot files)
does not affect the in-memory state and is not modelled. All callers in the
repository invoke `recordSnapshot()` with no argument, so the tracked input
set is always `this.currentProperties`. -/

/-- A property record as consumed by the Bid Tracker (the fields
`recordSnapshot` reads). `currentBidNumeric` is `Option ℚ` so that the JS
falsy fallback `currentBidNumeric || minimumBidNumeric` can distinguish an
absent field from a present zero (both fall back). -/
structure TrackedProp where
  auctionId : String
  address : Option String := none
  city : Option String := none
  currentBidNumeric : Option ℚ := none
  minimumBidNumeric : ℚ := 0
  hasBids : Bool := false
  status : Option String := none
  biddingCloses : Option String := none
  deriving DecidableEq

/-- One element of a `ListingHistory.history` (lines 684–698): `change` and
`changePercent` are present only when the bid differed from the prior
snapshot. -/
structure BidSnapshot where
  timestamp : ℚ
  currentBid : ℚ
  hasBids : Bool
  minimumBid : ℚ
  status : Option String := none
  change : Option ℚ := none
  changePercent : Option ℚ := none
  deriving DecidableEq

/-- Derived metrics (lines 661–668). `totalIncreasePercent` is not a key of
the initial object literal and first appears when `updateMetrics` runs, hence
`Option ℚ` initialized to `none`. -/
structure Metrics where
  totalChanges : ℕ
  bidVelocity : ℚ
  lastChangeHours : Option ℚ
  totalIncrease : ℚ
  totalIncreasePercent : Option ℚ
  firstBid : ℚ
  competitionScore : ℕ
  deriving DecidableEq

/-- The per-`auctionId` ListingHistory record. -/
structure PropertyHistory where
  auctionId : String
  address : Option String
  city : Option String
  history : List BidSnapshot
  metrics : Metrics
  deriving DecidableEq

/-- Lines 661–668: the metrics object a fresh history is seeded with;
`firstBid = property.currentBidNumeric || property.minimumBidNumeric`. -/
def initMetrics (p : TrackedProp) : Metrics where
  totalChanges := 0
  bidVelocity := 0
  lastChangeHours := none
  totalIncrease := 0
  totalIncreasePercent := none
  firstBid := jsOrNum p.currentBidNumeric p.minimumBidNumeric
  competitionScore := 0

/-- Lines 655–670: the fresh `ListingHistory` created for an unseen
`auctionId`. -/
def freshHistory (p : TrackedProp) : PropertyHistory where
  auctionId := p.auctionId
  address := p.address
  city := p.city
  history := []
  metrics := initMetrics p

/-- Lines 740–745: count adjacent snapshot pairs whose `currentBid` differ. -/
def countChanges : List BidSnapshot → ℕ
  | a :: b :: t => (if b.currentBid ≠ a.currentBid then 1 else 0) + countChanges (b :: t)
  | _ => 0

/-- Scan a reversed history for the most recent snapshot whose bid differed
from its predecessor. -/
def lastChangedOfRev : List BidSnapshot → Option BidSnapshot
  | x :: y :: t => if x.currentBid ≠ y.currentBid then some x else lastChangedOfRev (y :: t)
  | _ => none

/-- Lines 754–761: the snapshot at the source's `lastChangeIndex`. The index
is initialized to `history.length - 1` before the search loop, so when no
adjacent pair ever differed the "last change" silently defaults to the final
snapshot. -/
def lastChangedSnap (l : List BidSnapshot) : Option BidSnapshot :=
  lastChangedOfRev l.reverse

/-- Lines 813–822: `history[i].changePercent || 0 >= 20` for some `i ≥ 1`. -/
def hasSpike : List BidSnapshot → Bool
  | _ :: t => t.any (fun s => decide (s.changePercent.getD 0 ≥ 20))
  | [] => false

/-- Lines 783–825: the five-tier additive competition score, capped at 100. -/
def calculateCompetitionScore (ph : PropertyHistory) : ℕ :=
  let m := ph.metrics
  let s1 : ℕ :=
    if m.totalChanges ≥ 10 then 30
    else if m.totalChanges ≥ 5 then 20
    else if m.totalChanges ≥ 3 then 10
    else if m.totalChanges ≥ 1 then 5
    else 0
  let s2 : ℕ :=
    if m.bidVelocity ≥ 5 then 25
    else if m.bidVelocity ≥ 2 then 20
    else if m.bidVelocity ≥ 1 then 15
    else if m.bidVelocity ≥ (1:ℚ)/2 then 10
    else 0
  let s3 : ℕ :=
    match m.lastChangeHours with
    | none => 0
    | some lh =>
      if lh ≤ 1 then 20
      else if lh ≤ 6 then 15
      else if lh ≤ 24 then 10
      else if lh ≤ 48 then 5
      else 0
  let s4 : ℕ :=
    match m.totalIncreasePercent with
    | none => 0
    | some tp =>
      if tp ≥ 50 then 15
      else if tp ≥ 25 then 10
      else if tp ≥ 10 then 5
      else 0
  let s5 : ℕ := if hasSpike ph.history then 10 else 0
  min (s1 + s2 + s3 + s4 + s5) 100

/-- Lines 733–780: recompute the derived metrics from the full snapshot
sequence; returns the history unchanged when it has fewer than two snapshots.
The `if (lastChangeIndex > 0)` guard of line 764 is always satisfied here
because both the found index and the initialized default are ≥ 1 when the
history has at least two snapshots. -/
def updateMetrics (now : ℚ) (ph : PropertyHistory) : PropertyHistory :=
  match ph.history with
  | [] => ph
  | [_] => ph
  | f :: s :: t =>
    let hist := f :: s :: t
    let last := (s :: t).getLastD s
    let changes := countChanges hist
    let daysDiff := (last.timestamp - f.timestamp) / (1000 * 60 * 60 * 24)
    let velocity := if daysDiff > 0 then (changes : ℚ) / daysDiff else 0
    let lastChangeTs :=
      match lastChangedSnap hist with
      | some sn => sn.timestamp
      | none => last.timestamp
    let lastChangeHours := (now - lastChangeTs) / (1000 * 60 * 60)
    let totalIncrease := last.currentBid - f.currentBid
    let totalIncreasePercent :=
      if f.currentBid > 0 then (last.currentBid - f.currentBid) / f.currentBid * 100 else 0
    let m1 : Metrics :=
      { ph.metrics with
          totalChanges := changes
          bidVelocity := velocity
          lastChangeHours := some lastChangeHours
          totalIncrease := totalIncrease
          totalIncreasePercent := some totalIncreasePercent }
    let ph1 := { ph with metrics := m1 }
    { ph1 with metrics := { m1 with competitionScore := calculateCompetitionScore ph1 } }

/-- The in-memory `this.bidHistory` JSON object: an association list keyed by
`auctionId`. -/
abbrev HistMap := List (String × PropertyHistory)

/-- Object property lookup on the history map. -/
def findH : HistMap → String → Option PropertyHistory
  | [], _ => none
  | (k, v) :: t, key => if k = key then some v else findH t key

/-- Object property assignment on the history map. -/
def setH : HistMap → String → PropertyHistory → HistMap
  | [], key, v => [(key, v)]
  | (k, w) :: t, key, v => if k = key then (key, v) :: t else (k, w) :: setH t key v

/-- Lines 651–705: the per-property body of `recordSnapshot`'s loop. Returns
the updated map and whether this property counted as a change
(`hasChanged = !lastSnapshot || lastSnapshot.currentBid !== currentBid`). -/
def recordSnapshotProp (now : ℚ) (hist : HistMap) (p : TrackedProp) :
    HistMap × Bool :=
  let ph :=
    match findH hist p.auctionId with
    | some ph => ph
    | none => freshHistory p
  let lastSnapshot := ph.history.getLast?
  let currentBid := jsOrNum p.currentBidNumeric p.minimumBidNumeric
  let hasChanged :=
    match lastSnapshot with
    | none => true
    | some ls => decide (ls.currentBid ≠ currentBid)
  let snap : BidSnapshot :=
    { timestamp := now
      currentBid := currentBid
      hasBids := p.hasBids
      minimumBid := p.minimumBidNumeric
      status := p.status
      change :=
        match lastSnapshot with
        | some ls =>
          if ls.currentBid ≠ currentBid then some (currentBid - ls.currentBid) else none
        | none => none
      changePercent :=
        match lastSnapshot with
        | some ls =>
          if ls.currentBid ≠ currentBid then
            some (if ls.currentBid > 0 then (currentBid - ls.currentBid) / ls.currentBid * 100 else 0)
          else none
        | none => none }
  let ph' := updateMetrics now { ph with history := ph.history ++ [snap] }
  (setH hist p.auctionId ph', hasChanged)

/-- The `{timestamp, totalTracked, newChanges}` summary `recordSnapshot`
returns. -/
structure SnapshotResult where
  timestamp : ℚ
  totalTracked : ℕ
  newChanges : ℕ
  deriving DecidableEq

/-- Lines 639–730 applied to an explicit property list (the
`recordSnapshot(properties)` form): fold the per-property body over the list,
accumulating `newChanges` and `totalTracked`. -/
def recordSnapshotWith (now : ℚ) (props : List TrackedProp) (hist : HistMap) :
    HistMap × SnapshotResult :=
  let out := props.foldl
    (fun (acc : HistMap × ℕ × ℕ) p =>
      let r := recordSnapshotProp now acc.1 p
      (r.1, acc.2.1 + (if r.2 then 1 else 0), acc.2.2 + 1))
    (hist, 0, 0)
  (out.1, { timestamp := now, totalTracked := out.2.2, newChanges := out.2.1 })

/-- The Bid Tracker's in-memory state. -/
structure TrackerState where
  bidHistory : HistMap
  currentProperties : List TrackedProp
  deriving DecidableEq

/-- Lines 627–629: `p.biddingCloses && p.biddingCloses !== 'N/A'`. -/
def validCloses (p : TrackedProp) : Bool :=
  jsTruthy p.biddingCloses && p.biddingCloses != some "N/A"

/-- Lines 621–636: load the current-properties file, keeping only individual
(non-bundle) listings. -/
def loadCurrentProperties (raw : List TrackedProp) (st : TrackerState) : TrackerState :=
  { st with currentProperties := raw.filter validCloses }

/-- Lines 639–730 in the no-argument form every caller uses: snapshot
`this.currentProperties`; with no properties it returns early with no result
object. -/
def recordSnapshot (now : ℚ) (st : TrackerState) :
    TrackerState × Option SnapshotResult :=
  if st.currentProperties.isEmpty then (st, none)
  else
    let r := recordSnapshotWith now st.currentProperties st.bidHistory
    ({ st with bidHistory := r.1 }, some r.2)

/-- The operations the repository performs against the tracker. -/
inductive TrackerOp where
  | load (raw : List TrackedProp)
  | snapshot (now : ℚ)

/-- Run a sequence of tracker operations. -/
def runOps : List TrackerOp → TrackerState → TrackerState
  | [], st => st
  | .load raw :: rest, st => runOps rest (loadCurrentProperties raw st)
  | .snapshot now :: rest, st => runOps rest (recordSnapshot now st).1

/-- The tracker's state before any history has been loaded (constructor plus
an absent history file, lines 594–618). -/
def initTrackerState : TrackerState where
  bidHistory := []
  currentProperties := []

/-- The raw property lists fed to `load` operations in a run. -/
def loadsOf : List TrackerOp → List (List TrackedProp)
  | [] => []
  | .load raw :: rest => raw :: loadsOf rest
  | .snapshot _ :: rest => loadsOf rest

/-! ## History-map lemmas -/

theorem findH_setH_self (m : HistMap) (k : String) (v : PropertyHistory) :
    findH (setH m k v) k = some v := by
  induction m with
  | nil => simp [setH, findH]
  | cons e t ih =>
    unfold setH
    by_cases h : e.1 = k
    · rw [if_pos h]
      simp [findH]
    · rw [if_neg h]
      unfold findH
      rw [if_neg h]
      exact ih

theorem findH_setH_other (m : HistMap) (k k2 : String) (v : PropertyHistory)
    (h : k ≠ k2) : findH (setH m k v) k2 = findH m k2 := by
  induction m with
  | nil => simp [setH, findH, h]
  | cons e t ih =>
    unfold setH
    by_cases he : e.1 = k
    · rw [if_pos he]
      unfold findH
      rw [if_neg h, if_neg (he ▸ h)]
    · rw [if_neg he]
      unfold findH
      by_cases he2 : e.1 = k2
      · rw [if_pos he2, if_pos he2]
      · rw [if_neg he2, if_neg he2]
        exact ih

theorem recordSnapshotProp_other (now : ℚ) (hist : HistMap) (p : TrackedProp)
    (k : String) (h : p.auctionId ≠ k) :
    findH (recordSnapshotProp now hist p).1 k = findH hist k :=
  findH_setH_other hist p.auctionId k _ h

theorem recordSnapshotWith_fold_other (now : ℚ) (k : String) :
    ∀ (props : List TrackedProp) (acc : HistMap × ℕ × ℕ),
      (∀ p ∈ props, p.auctionId ≠ k) →
      findH (props.foldl
        (fun (acc : HistMap × ℕ × ℕ) p =>
          let r := recordSnapshotProp now acc.1 p
          (r.1, acc.2.1 + (if r.2 then 1 else 0), acc.2.2 + 1)) acc).1 k
        = findH acc.1 k := by
  intro props
  induction props with
  | nil => intro acc _; rfl
  | cons p t ih =>
    intro acc hall
    rw [List.foldl_cons]
    rw [ih _ (fun q hq => hall q (List.mem_cons_of_mem p hq))]
    exact recordSnapshotProp_other now acc.1 p k (hall p (List.mem_cons_self p t))

theorem recordSnapshotWith_other (now : ℚ) (props : List TrackedProp)
    (hist : HistMap) (k : String) (h : ∀ p ∈ props, p.auctionId ≠ k) :
    findH (recordSnapshotWith now props hist).1 k = findH hist k :=
  recordSnapshotWith_fold_other now k props (hist, 0, 0) h

/-! ## C9: firstBid seeding of a fresh history -/

/-- C9 counterexample input: a present-but-zero current bid. -/
def zeroBidProp : TrackedProp where
  auctionId := "B"
  currentBidNumeric := some 0
  minimumBidNumeric := 500

/-- Counterexample to C9 as stated: for a listing whose current bid amount is
present and equal to 0 (minimum bid 500), the freshly created history is
seeded with `firstBid = 500` (the minimum bid), not with the present current
bid 0 — the JS `||` fallback treats a zero current bid like an absent one,
contradicting `firstBid = currentBid ?? minimumBid`. -/
theorem firstBid_seed_counterexample :
    (findH (recordSnapshotWith 0 [zeroBidProp] []).1 "B").map
        (fun ph => ph.metrics.firstBid) = some 500
    ∧ ¬((findH (recordSnapshotWith 0 [zeroBidProp] []).1 "B").map
        (fun ph => ph.metrics.firstBid) = some 0) := by
  constructor <;> decide

/-- C9 (amended): when `recordSnapshot` processes a listing with no existing
ListingHistory, the created history's `firstBid` equals the current bid
amount when that amount is present and non-zero, and equals the minimum bid
amount when the current bid is absent or zero (JS `currentBid ||
minimumBid`). -/
theorem firstBid_seed (now : ℚ) (p : TrackedProp) (hist : HistMap)
    (hnew : findH hist p.auctionId = none) :
    (findH (recordSnapshotWith now [p] hist).1 p.auctionId).map
        (fun ph => ph.metrics.firstBid)
      = some (match p.currentBidNumeric with
          | none => p.minimumBidNumeric
          | some c => if c = 0 then p.minimumBidNumeric else c) := by
  unfold recordSnapshotWith
  rw [List.foldl_cons, List.foldl_nil]
  unfold recordSnapshotProp
  rw [hnew]
  simp only [freshHistory, List.nil_append, List.getLast?]
  rw [findH_setH_self]
  simp only [updateMetrics, Option.map_some]
  unfold initMetrics jsOrNum
  rcases p.currentBidNumeric with _ | c <;> rfl

/-- Witness for C9 (amended) at a concrete fresh listing with a non-zero
current bid of 250. -/
theorem firstBid_seed_witness :
    (findH (recordSnapshotWith 0
        [{ auctionId := "W", currentBidNumeric := some 250, minimumBidNumeric := 100 }] []).1
        "W").map (fun ph => ph.metrics.firstBid)
      = some (match (some (250:ℚ) : Option ℚ) with
          | none => (100:ℚ)
          | some c => if c = 0 then (100:ℚ) else c) :=
  firstBid_seed 0
    { auctionId := "W", currentBidNumeric := some 250, minimumBidNumeric := 100 } [] rfl

/-! ## C1/C3: the lastChangeIndex initialization slip -/

/-- The listing used to exercise repeated identical snapshots. -/
def repeatProp : TrackedProp where
  auctionId := "A"
  currentBidNumeric := some 100
  minimumBidNumeric := 50
  hasBids := true

/-- C1: a second `recordSnapshot` pass over byte-identical input does return
`newChanges = 0`, but the derived metrics are NOT unchanged: even when both
passes carry the same timestamp, the second pass flips `lastChangeHours` from
`null` to `0` and `competitionScore` from `0` to `20` (the ≤1h recency tier
fires), because `updateMetrics` initializes `lastChangeIndex` to the final
snapshot when no adjacent pair ever differed. `totalChanges`, `totalIncrease`
and `bidVelocity` stay unchanged. -/
theorem second_identical_snapshot_mutates_metrics :
    (recordSnapshotWith 0 [repeatProp] []).2.newChanges = 1
    ∧ (recordSnapshotWith 0 [repeatProp]
        (recordSnapshotWith 0 [repeatProp] []).1).2.newChanges = 0
    ∧ (findH (recordSnapshotWith 0 [repeatProp] []).1 "A").map
        (fun ph => ph.metrics.lastChangeHours) = some none
    ∧ (findH (recordSnapshotWith 0 [repeatProp] []).1 "A").map
        (fun ph => ph.metrics.competitionScore) = some 0
    ∧ (findH (recordSnapshotWith 0 [repeatProp]
        (recordSnapshotWith 0 [repeatProp] []).1).1 "A").map
        (fun ph => ph.metrics.lastChangeHours) = some (some 0)
    ∧ (findH (recordSnapshotWith 0 [repeatProp]
        (recordSnapshotWith 0 [repeatProp] []).1).1 "A").map
        (fun ph => ph.metrics.competitionScore) = some 20
    ∧ (findH (recordSnapshotWith 0 [repeatProp]
        (recordSnapshotWith 0 [repeatProp] []).1).1 "A").map
        (fun ph => ph.metrics.totalChanges) = some 0 := by
  refine ⟨by decide, by decide, by decide, by decide, ?_, ?_, by decide⟩ <;>
    norm_num [recordSnapshotWith, recordSnapshotProp, findH, setH, freshHistory, initMetrics,
      jsOrNum, updateMetrics, countChanges, lastChangedSnap, lastChangedOfRev, hasSpike,
      calculateCompetitionScore, repeatProp, List.foldl, List.getLast?, List.getLastD]

/-- C3: after a snapshot pass over a history in which no adjacent pair of
snapshots ever differed in bid amount (two identical-bid snapshots two hours
apart), `updateMetrics` sets `lastChangeHours` to `0` — the hours since the
final snapshot — instead of leaving it `null`: the search-loop's
`lastChangeIndex` is initialized to `history.length - 1`, so the
no-change-ever case silently reports the last snapshot as a change. -/
theorem lastChangeHours_without_any_change :
    (findH (recordSnapshotWith 7200000 [repeatProp]
        (recordSnapshotWith 0 [repeatProp] []).1).1 "A").map
        (fun ph => countChanges ph.history) = some 0
    ∧ (findH (recordSnapshotWith 7200000 [repeatProp]
        (recordSnapshotWith 0 [repeatProp] []).1).1 "A").map
        (fun ph => ph.metrics.totalChanges) = some 0
    ∧ (findH (recordSnapshotWith 7200000 [repeatProp]
        (recordSnapshotWith 0 [repeatProp] []).1).1 "A").map
        (fun ph => ph.metrics.lastChangeHours) = some (some 0)
    ∧ (some (some (0:ℚ)) : Option (Option ℚ)) ≠ some none := by
  refine ⟨by decide, by decide, ?_, by decide⟩
  norm_num [recordSnapshotWith, recordSnapshotProp, findH, setH, freshHistory, initMetrics,
    jsOrNum, updateMetrics, countChanges, lastChangedSnap, lastChangedOfRev, hasSpike,
    calculateCompetitionScore, repeatProp, List.foldl, List.getLast?, List.getLastD]

/-! ## C4: the competition score at the spec's concrete tier boundary case -/

/-- A 13-snapshot history: 12 adjacent-pair bid changes spread over exactly 2
days (one snapshot every 4 hours), rising from 100 to 160 (a 60% total
increase) with one single-step 25% jump (100 → 125); the `change` /
`changePercent` fields are exactly the ones `recordSnapshot` stores. -/
def spikeHistory : List BidSnapshot :=
  [ { timestamp := 0, currentBid := 100, hasBids := true, minimumBid := 50 },
    { timestamp := 14400000, currentBid := 125, hasBids := true, minimumBid := 50,
      change := some 25, changePercent := some 25 },
    { timestamp := 28800000, currentBid := 130, hasBids := true, minimumBid := 50,
      change := some 5, changePercent := some 4 },
    { timestamp := 43200000, currentBid := 135, hasBids := true, minimumBid := 50,
      change := some 5, changePercent := some (50/13) },
    { timestamp := 57600000, currentBid := 140, hasBids := true, minimumBid := 50,
      change := some 5, changePercent := some (100/27) },
    { timestamp := 72000000, currentBid := 145, hasBids := true, minimumBid := 50,
      change := some 5, changePercent := some (25/7) },
    { timestamp := 86400000, currentBid := 150, hasBids := true, minimumBid := 50,
      change := some 5, changePercent := some (100/29) },
    { timestamp := 100800000, currentBid := 155, hasBids := true, minimumBid := 50,
      change := some 5, changePercent := some (10/3) },
    { timestamp := 115200000, currentBid := 160, hasBids := true, minimumBid := 50,
      change := some 5, changePercent := some (100/31) },
    { timestamp := 129600000, currentBid := 159, hasBids := true, minimumBid := 50,
      change := some (-1), changePercent := some (-5/8) },
    { timestamp := 144000000, currentBid := 160, hasBids := true, minimumBid := 50,
      change := some 1, changePercent := some (100/159) },
    { timestamp := 158400000, currentBid := 159, hasBids := true, minimumBid := 50,
      change := some (-1), changePercent := some (-5/8) },
    { timestamp := 172800000, currentBid := 160, hasBids := true, minimumBid := 50,
      change := some 1, changePercent := some (100/159) } ]

/-- The ListingHistory owning `spikeHistory`, before metric recomputation. -/
def spikeListing : PropertyHistory where
  auctionId := "D"
  address := none
  city := none
  history := spikeHistory
  metrics :=
    { totalChanges := 0, bidVelocity := 0, lastChangeHours := none, totalIncrease := 0,
      totalIncreasePercent := none, firstBid := 100, competitionScore := 0 }

/-- C4: recomputing the metrics of a listing with 12 adjacent-pair bid changes
over a 2-day span (velocity 6/day), whose most recent change was 30 minutes
before `now`, whose latest bid exceeds its first bid by 60%, and which
contains a single-step 25% jump, yields exactly the claimed tier inputs and
`competitionScore = 100` (30 + 25 + 20 + 15 + 10, capped at 100). -/
theorem competitionScore_saturates :
    (updateMetrics (172800000 + 1800000) spikeListing).metrics
      = { totalChanges := 12, bidVelocity := 6, lastChangeHours := some (1/2),
          totalIncrease := 60, totalIncreasePercent := some 60, firstBid := 100,
          competitionScore := 100 } := by
  norm_num [updateMetrics, countChanges, lastChangedSnap, lastChangedOfRev, hasSpike,
    calculateCompetitionScore, spikeListing, spikeHistory, List.getLastD]

/-! ## C6: the bundle-exclusion invariant -/

theorem runOps_bundle_aux (k : String) :
    ∀ (ops : List TrackerOp) (st : TrackerState),
      (∀ raw ∈ loadsOf ops, ∀ p ∈ raw, p.auctionId = k →
        (p.biddingCloses = none ∨ p.biddingCloses = some "N/A")) →
      findH st.bidHistory k = none →
      (∀ p ∈ st.currentProperties, p.auctionId ≠ k) →
      findH (runOps ops st).bidHistory k = none
      ∧ (∀ p ∈ (runOps ops st).currentProperties, p.auctionId ≠ k) := by
  intro ops
  induction ops with
  | nil => intro st _ hh hc; exact ⟨hh, hc⟩
  | cons op rest ih =>
    intro st hb hh hc
    cases op with
    | load raw =>
      refine ih (loadCurrentProperties raw st)
        (fun r hr => hb r (by simp [loadsOf, hr])) hh ?_
      intro p hp hpk
      have hmem := List.mem_filter.1 hp
      rcases hb raw (by simp [loadsOf]) p hmem.1 hpk with h0 | h0 <;>
        simp_all [validCloses, jsTruthy]
    | snapshot now =>
      refine ih (recordSnapshot now st).1 (fun r hr => hb r (by simp [loadsOf, hr])) ?_ ?_
      · unfold recordSnapshot
        split_ifs with he
        · exact hh
        · rw [show ({ st with bidHistory := (recordSnapshotWith now st.currentProperties
              st.bidHistory).1 } : TrackerState).bidHistory
              = (recordSnapshotWith now st.currentProperties st.bidHistory).1 from rfl]
          rw [recordSnapshotWith_other now st.currentProperties st.bidHistory k hc]
          exact hh
      · unfold recordSnapshot
        split_ifs with he
        · exact hc
        · exact hc

/-- C6: a listing whose `biddingCloses` is absent or the string `"N/A"` never
enters the Bid Tracker's input set (`currentProperties`) and never gets a
ListingHistory entry created or updated, across every sequence of load and
snapshot operations from a fresh tracker. -/
theorem bundle_exclusion (ops : List TrackerOp) (k : String)
    (hb : ∀ raw ∈ loadsOf ops, ∀ p ∈ raw, p.auctionId = k →
      (p.biddingCloses = none ∨ p.biddingCloses = some "N/A")) :
    findH (runOps ops initTrackerState).bidHistory k = none
    ∧ (∀ p ∈ (runOps ops initTrackerState).currentProperties, p.auctionId ≠ k) :=
  runOps_bundle_aux k ops initTrackerState hb rfl (by simp [initTrackerState])

/-- Witness for C6: a concrete run that loads one bundle listing ("BND",
no closing time) alongside a normal listing and takes a snapshot — the bundle
key has no history entry and is not among the tracked properties. -/
theorem bundle_exclusion_witness :
    findH (runOps
      [ .load
          [ { auctionId := "BND", currentBidNumeric := some 900 },
            { auctionId := "GOOD", currentBidNumeric := some 100,
              biddingCloses := some "9/15/2025 5:00 PM" } ],
        .snapshot 0 ] initTrackerState).bidHistory "BND" = none
    ∧ (∀ p ∈ (runOps
      [ .load
          [ { auctionId := "BND", currentBidNumeric := some 900 },
            { auctionId := "GOOD", currentBidNumeric := some 100,
              biddingCloses := some "9/15/2025 5:00 PM" } ],
        .snapshot 0 ] initTrackerState).currentProperties, p.auctionId ≠ "BND") :=
  bundle_exclusion _ "BND" (by decide)
